import Mathlib

/-
Verification development for `src/DjApp/file_management.py` (MixLab).

The file shallow-embeds the two components of the module:

* `BPMAnalyzerThread` — the background worker whose `run` loop walks the
  mutable `file_list`, calls the external analyzer per file, and emits the
  Qt signals `bpm_analyzed` / `analysis_completed`.  The external
  collaborators (`analyze_file`, `get_full_track_beat_positions_ms`) are
  modelled as an environment `AEnv`; a raised Python exception is modelled
  as an `Except.error` outcome.  The interleaving actions `stop()` and
  `add_files()` happen on the control thread; following the cooperative
  cancellation design (the `running` flag is polled at the top of each
  iteration, and Python's `for` statement re-reads `len(file_list)` at each
  step), they take effect exactly at per-file iteration boundaries.  The
  loop is therefore modelled by three schedules: `runPlain` (no external
  action), `runStopN` (cancellation requested after `n` iterations) and
  `runApp` (an `add_files` arriving at one iteration boundary).

* `FileBrowserDialog` — the control-thread state: `directory`, the
  in-memory tier `bpm_cache` (a Python dict, modelled as
  `String → Option ℚ`), `track_items` (file name ↦ displayed label, the
  label modelled structurally as the optional BPM shown in it), the status
  label text, the handle to the analyzer thread, and the outgoing
  `bpm_analyzed(full_path, bpm)` signals.  The external collaborators
  (`os.path.isdir`, `os.listdir`, the persistent `cache_manager`, the
  truthiness of `audio_analyzer`) form the environment `DEnv`.

BPM values are modelled as `ℚ` (Python floats used only through `> 0`,
`== 0` comparisons and dict storage; no rounding behaviour is relevant).
`os.path.join dir file` is modelled as `dir ++ "/" ++ file`.
-/

/-- Notification events observable on the worker's signal channel:
`bpm_analyzed.emit(file, bpm)` and `analysis_completed.emit()`. -/
inductive Event where
  | bpmAnalyzed (file : String) (bpm : ℚ)
  | analysisCompleted
deriving DecidableEq

/-- Outcome of a call to `audio_analyzer.analyze_file(path)`: either a raised
exception (with its message) or a returned `(bpm, aux)` pair, of which `run`
uses only the bpm. -/
inductive AOutcome where
  | raise (msg : String)
  | value (bpm : ℚ)
deriving DecidableEq

/-- Environment of `BPMAnalyzerThread.run`: the truthiness of
`self.audio_analyzer` and the behaviour of the two external analyzer calls,
keyed by file name (the directory is fixed for one thread, so keying by the
name loses nothing). -/
structure AEnv where
  hasAnalyzer : Bool
  analyze : String → AOutcome
  beats : String → Except String (List Nat)

/-- The call `bpm, _ = self.audio_analyzer.analyze_file(file_path)` as a
fallible computation. -/
def analyzeCall (env : AEnv) (file : String) : Except String ℚ :=
  match env.analyze file with
  | AOutcome.raise m => Except.error m
  | AOutcome.value b => Except.ok b

/-- Body of the outer `try:` block of one iteration of
`BPMAnalyzerThread.run` (lines 42-59): guard on `self.audio_analyzer`,
analyze, and if `bpm > 0` attempt the beat pre-warm (its own inner
`try/except`, both branches continuing to the emit) and emit
`bpm_analyzed(file, bpm)`.  An uncaught analyzer exception propagates as
`Except.error`. -/
def tryBody (env : AEnv) (file : String) : Except String (List Event) :=
  if env.hasAnalyzer then
    match analyzeCall env file with
    | Except.error m => Except.error m
    | Except.ok bpm =>
      if 0 < bpm then
        match env.beats file with
        | Except.ok _ => Except.ok [Event.bpmAnalyzed file bpm]
        | Except.error _ => Except.ok [Event.bpmAnalyzed file bpm]
      else Except.ok []
  else Except.ok []

/-- One full iteration of the `run` loop for one file: the outer
`except Exception` (lines 60-61) catches any error from the body, prints it,
and the loop moves on — the iteration contributes no event. -/
def processFile (env : AEnv) (file : String) : List Event :=
  match tryBody env file with
  | Except.ok evs => evs
  | Except.error _ => []

/-- `BPMAnalyzerThread.run` when neither `stop` nor `add_files` intervenes:
each queued file is processed in order and `analysis_completed` is emitted
after the loop (line 64). -/
def runPlain (env : AEnv) : List String → List Event
  | [] => [Event.analysisCompleted]
  | f :: rest => processFile env f ++ runPlain env rest

/-- `BPMAnalyzerThread.run` when `stop()` is called from the control thread
after `n` iterations have completed: the `if not self.running: break` check
(lines 39-40) fires at the next iteration boundary, and — because the emit on
line 64 sits after the loop, not inside it — `analysis_completed` is still
emitted after the break. -/
def runStopN (env : AEnv) : Nat → List String → List Event
  | _, [] => [Event.analysisCompleted]
  | 0, _ :: _ => [Event.analysisCompleted]
  | n + 1, f :: rest => processFile env f ++ runStopN env n rest

/-- `BPMAnalyzerThread.run` when one `add_files(extra)` call arrives at the
iteration boundary after `appendAt` iterations: `file_list.extend(extra)`
puts `extra` at the tail, and Python's `for` (which indexes into the live
list) keeps iterating into it.  `i` counts iterations already performed;
the first argument of the match is the pending suffix of the queue. -/
def runApp (env : AEnv) (appendAt : Nat) (extra : List String) : Nat → List String → List Event
  | i, [] => if i = appendAt then runPlain env extra else [Event.analysisCompleted]
  | i, f :: rest =>
    if i = appendAt then runPlain env (f :: rest ++ extra)
    else processFile env f ++ runApp env appendAt extra (i + 1) rest

/-- Model of `os.path.join(directory, file)` for a directory without trailing
separator and a bare file name, as used throughout the module. -/
def pathJoin (dir file : String) : String :=
  dir ++ "/" ++ file

/-- The analyzer-thread handle as the dialog sees it: the constructor
arguments `directory` and `file_list`, the cooperative flag `self.running`
(written by `stop`), and `isRunning()` liveness (`alive`, cleared by
`wait()` once the thread exits). -/
structure ThreadH where
  directory : String
  fileList : List String
  runningFlag : Bool
  alive : Bool
deriving DecidableEq

/-- Environment of `FileBrowserDialog`: `os.path.isdir`, `os.listdir`
(`Except.error` is a raised `OSError` with its message), truthiness of
`self.audio_analyzer` and `self.cache_manager`, and the persistent store's
`get_bpm_data`.  `get_bpm_data` returns `none` for a falsy result
(`None`/empty), `some none` for a truthy tuple whose first component is
`None`, and `some (some v)` for a truthy tuple with first component `v` —
exactly the distinctions tested by
`if cached_data and cached_data[0] is not None`. -/
structure DEnv where
  isdir : String → Bool
  listdir : String → Except String (List String)
  hasAnalyzer : Bool
  hasCacheManager : Bool
  get_bpm_data : String → Option (Option ℚ)

/-- Control-thread state of `FileBrowserDialog`.  `track_items` keeps the
per-file UI entries in insertion order; the displayed label is modelled
structurally as the optional BPM it shows (`none` ⇔ the plain base name,
`some b` ⇔ the name decorated with `(b BPM)` — the `"BPM" in lbl.text()`
test of `update_track_bpm` is `Option.isSome` in this model, abstracting
the corner case of a raw file name containing the letters `BPM`).
`emitted` records the dialog's outgoing `bpm_analyzed.emit(full_path, bpm)`
signals in order. -/
structure DState where
  directory : Option String
  bpm_cache : String → Option ℚ
  track_items : List (String × Option ℚ)
  status : String
  analyzer_thread : Option ThreadH
  emitted : List (String × ℚ)

/-- ASCII lowercasing of one character, the case relevant to the extension
test (`str.lower` on the extensions' ASCII letters). -/
def lowerChar (c : Char) : Char :=
  if 65 ≤ c.toNat ∧ c.toNat ≤ 90 then Char.ofNat (c.toNat + 32) else c

/-- `file.lower()` on the character sequence. -/
def strLower (s : String) : String :=
  ⟨s.data.map lowerChar⟩

/-- `s.endswith(t)` on the character sequences. -/
def strEndsWith (s t : String) : Bool :=
  t.data.isSuffixOf s.data

/-- `file.lower().endswith((".mp3", ".wav", ".flac"))`. -/
def audioExt (file : String) : Bool :=
  strEndsWith (strLower file) ".mp3" || strEndsWith (strLower file) ".wav"
    || strEndsWith (strLower file) ".flac"

/-- Accumulator of the per-file cache-check loop of `populate_file_list`
(lines 214-242): the evolving in-memory cache, the UI entries created so
far, `files_to_analyze`, and the two hit counters. -/
structure ScanAcc where
  cache : String → Option ℚ
  items : List (String × Option ℚ)
  toAnalyze : List String
  fromPersistent : Nat
  fromMemory : Nat

/-- Lines 222-229 of the cache-check loop: consult the persistent store
when a `cache_manager` was provided; a hit whose first component is not
`None` becomes the candidate BPM and is promoted into `bpm_cache`
unguarded (the code tests only `is not None`, not `> 0`).  Returns the
candidate `cached_bpm` so far together with the updated accumulator. -/
def scanPersistent (env : DEnv) (full_path : String) (acc : ScanAcc) : ℚ × ScanAcc :=
  if env.hasCacheManager then
    match env.get_bpm_data full_path with
    | some (some v) =>
      (v, { acc with
            cache := fun p => if p = full_path then some v else acc.cache p,
            fromPersistent := acc.fromPersistent + 1 })
    | _ => (0, acc)
  else (0, acc)

/-- Lines 231-235 of the cache-check loop: when the candidate is still `0`,
fall back to `bpm_cache.get(full_path, 0)`, counting a memory hit only when
the stored value is positive. -/
def scanMemory (full_path : String) (cached1 : ℚ) (acc : ScanAcc) : ℚ × ScanAcc :=
  if cached1 = 0 then
    let m := (acc.cache full_path).getD 0
    if 0 < m then (m, { acc with fromMemory := acc.fromMemory + 1 }) else (m, acc)
  else (cached1, acc)

/-- One iteration of the cache-check loop (lines 218-242): persistent check,
in-memory fallback, then either render the track with its BPM or append it
to `files_to_analyze`, rendering it without one. -/
def scanFile (env : DEnv) (dir : String) (acc : ScanAcc) (file : String) : ScanAcc :=
  let full_path := pathJoin dir file
  let r1 := scanPersistent env full_path acc
  let r2 := scanMemory full_path r1.1 r1.2
  if 0 < r2.1 then
    { r2.2 with items := r2.2.items ++ [(file, some r2.1)] }
  else
    { r2.2 with
      items := r2.2.items ++ [(file, none)],
      toAnalyze := r2.2.toAnalyze ++ [file] }

/-- The thread-management tail of `populate_file_list` (lines 255-268):
start a new `BPMAnalyzerThread` only when none exists or the existing one is
not running; otherwise `add_files` the batch into the live thread's queue.
With nothing to analyze (or no analyzer) the dialog's own
`analysis_completed()` runs, overwriting the status label. -/
def startOrExtend (env : DEnv) (dir : String) (st : DState) (files_to_analyze : List String) :
    DState :=
  if files_to_analyze ≠ [] ∧ env.hasAnalyzer then
    match st.analyzer_thread with
    | none =>
      { st with analyzer_thread := some ⟨dir, files_to_analyze, true, true⟩ }
    | some t =>
      if t.alive then
        { st with
          analyzer_thread := some { t with fileList := t.fileList ++ files_to_analyze } }
      else
        { st with analyzer_thread := some ⟨dir, files_to_analyze, true, true⟩ }
  else
    { st with status := "Analysis complete!" }

/-- `FileBrowserDialog.populate_file_list` (lines 187-268).  The
`list_widget` calls and the `QMessageBox` are presentation only; the
modelled effects are `track_items`, `bpm_cache`, the status text, and the
analyzer-thread handle. -/
def populate_file_list (env : DEnv) (st : DState) : DState :=
  let st0 := { st with track_items := [] }
  match st.directory with
  | none => { st0 with status := "No valid directory selected." }
  | some d =>
    if d = "" ∨ ¬ env.isdir d then
      { st0 with status := "No valid directory selected." }
    else
      match env.listdir d with
      | Except.error e => { st0 with status := "Error accessing directory: " ++ e }
      | Except.ok entries =>
        let audio_files := entries.filter audioExt
        if audio_files = [] then
          { st0 with status := "No compatible audio tracks found." }
        else
          let acc := audio_files.foldl (scanFile env d)
            { cache := st.bpm_cache, items := [], toAnalyze := [],
              fromPersistent := 0, fromMemory := 0 }
          let cached_count := acc.fromPersistent + acc.fromMemory
          let status :=
            if 0 < cached_count then
              if acc.toAnalyze ≠ [] then
                s!"{cached_count} tracks ready, analyzing {acc.toAnalyze.length} more..."
              else
                s!"All {cached_count} tracks ready!"
            else
              s!"Analyzing {acc.toAnalyze.length} tracks..."
          let st1 :=
            { st0 with
              bpm_cache := acc.cache, track_items := acc.items, status := status }
          startOrExtend env d st1 acc.toAnalyze

/-- `FileBrowserDialog.set_directory` (lines 158-173): store the new
directory; repopulate when it is a non-empty path naming a directory,
otherwise clear the title/list, report `Invalid directory selected.` and
reset `self.directory` to `None` (note: `track_items` is left stale in this
branch — only `populate_file_list` clears it). -/
def set_directory (env : DEnv) (st : DState) (directory : String) : DState :=
  let st1 := { st with directory := some directory }
  if directory ≠ "" ∧ env.isdir directory then
    populate_file_list env st1
  else
    { st1 with status := "Invalid directory selected.", directory := none }

/-- `FileBrowserDialog.closeEvent` (lines 175-185): a live analyzer thread
is stopped (`running := False`) and then joined (`wait()`, after which
`isRunning()` is false). -/
def closeEvent (st : DState) : DState :=
  match st.analyzer_thread with
  | some t =>
    if t.alive then
      { st with analyzer_thread := some { t with runningFlag := false, alive := false } }
    else st
  | none => st

/-- `FileBrowserDialog.update_track_bpm` (lines 345-377): guarded on
`file in self.track_items and bpm > 0`; on success it writes the in-memory
cache at the full path, updates the track's label, recomputes the progress
status from the labels, and re-emits `bpm_analyzed(full_path, bpm)`.
When the guard fails the method returns having changed nothing.  (The
`st.directory = none` arm is unreachable through the signal path modelled
here; in Python `os.path.join(None, file)` would raise.) -/
def update_track_bpm (st : DState) (file : String) (bpm : ℚ) : DState :=
  if file ∈ st.track_items.map Prod.fst ∧ 0 < bpm then
    match st.directory with
    | none => st
    | some d =>
      let full_path := pathJoin d file
      let items := st.track_items.map fun e => if e.1 = file then (e.1, some bpm) else e
      let analyzed_count := (items.filter fun e => e.2.isSome).length
      let total_count := items.length
      let remaining := total_count - analyzed_count
      let status :=
        if 0 < remaining then
          s!"Analyzing BPM: {analyzed_count} done, {remaining} remaining..."
        else
          s!"All {total_count} tracks analyzed!"
      { st with
        bpm_cache := fun p => if p = full_path then some bpm else st.bpm_cache p,
        track_items := items, status := status,
        emitted := st.emitted ++ [(full_path, bpm)] }
  else st

/-- `FileBrowserDialog.get_cached_bpm` (lines 386-395): in-memory lookup
with default `0`. -/
def get_cached_bpm (st : DState) (file_path : String) : ℚ :=
  (st.bpm_cache file_path).getD 0

/-- Delivery of one queued worker signal on the control thread:
`bpm_analyzed` is connected to `update_track_bpm`, `analysis_completed` to
the dialog's `analysis_completed` slot (line 384), which sets the status
label. -/
def deliverEvent (st : DState) : Event → DState
  | Event.bpmAnalyzed f b => update_track_bpm st f b
  | Event.analysisCompleted => { st with status := "Analysis complete!" }

/-- Delivery of a whole queued signal sequence, in order. -/
def deliverAll (st : DState) (evs : List Event) : DState :=
  evs.foldl deliverEvent st

/-! ### Basic lemmas about one worker iteration -/

/-- Closed form of one iteration: the only event it can contribute is the
`bpm_analyzed` signal for a strictly positive analyzer result, and the
beat pre-warm outcome plays no role. -/
theorem processFile_eq (env : AEnv) (file : String) :
    processFile env file =
      match env.hasAnalyzer, env.analyze file with
      | true, AOutcome.value b => if 0 < b then [Event.bpmAnalyzed file b] else []
      | _, _ => [] := by
  unfold processFile tryBody analyzeCall
  cases env.hasAnalyzer <;> cases env.analyze file <;> simp
  rename_i b
  by_cases hb : 0 < b
  · cases env.beats file <;> simp [hb]
  · simp [hb]

theorem processFile_of_value {env : AEnv} {file : String} {b : ℚ}
    (ha : env.hasAnalyzer = true) (hv : env.analyze file = AOutcome.value b)
    (hb : 0 < b) :
    processFile env file = [Event.bpmAnalyzed file b] := by
  rw [processFile_eq, ha, hv]
  simp [hb]

theorem processFile_of_nonpos {env : AEnv} {file : String} {b : ℚ}
    (hv : env.analyze file = AOutcome.value b) (hb : ¬ 0 < b) :
    processFile env file = [] := by
  rw [processFile_eq, hv]
  cases env.hasAnalyzer <;> simp [hb]

theorem processFile_of_raise {env : AEnv} {file : String} {m : String}
    (hv : env.analyze file = AOutcome.raise m) :
    processFile env file = [] := by
  rw [processFile_eq, hv]
  cases env.hasAnalyzer <;> simp

theorem processFile_mem {env : AEnv} {file : String} {e : Event}
    (h : e ∈ processFile env file) :
    ∃ b, e = Event.bpmAnalyzed file b ∧ env.analyze file = AOutcome.value b
      ∧ 0 < b ∧ env.hasAnalyzer = true := by
  rw [processFile_eq] at h
  cases ha : env.hasAnalyzer <;> cases hv : env.analyze file <;>
    rw [ha, hv] at h <;> simp at h
  rcases h with ⟨hb, he⟩
  exact ⟨_, he, rfl, hb, rfl⟩

theorem completed_not_mem_processFile (env : AEnv) (file : String) :
    Event.analysisCompleted ∉ processFile env file := by
  intro h
  rcases processFile_mem h with ⟨b, he, -, -, -⟩
  exact Event.noConfusion he

/-! ### Closed forms of the three run schedules -/

/-- An uninterrupted run is the concatenation of the per-file contributions,
in queue order, followed by the single completion event. -/
theorem runPlain_eq_bind (env : AEnv) (l : List String) :
    runPlain env l = l.flatMap (processFile env) ++ [Event.analysisCompleted] := by
  induction l with
  | nil => simp [runPlain]
  | cons f rest ih => simp [runPlain, ih]

theorem runPlain_append (env : AEnv) (xs ys : List String) :
    runPlain env (xs ++ ys) = xs.flatMap (processFile env) ++ runPlain env ys := by
  rw [runPlain_eq_bind, runPlain_eq_bind, List.flatMap_append, List.append_assoc]

theorem completed_not_mem_bind (env : AEnv) (l : List String) :
    Event.analysisCompleted ∉ l.flatMap (processFile env) := by
  intro h
  rcases List.mem_flatMap.mp h with ⟨f, -, hf⟩
  exact completed_not_mem_processFile env f hf

/-- A run on which cancellation lands after `n` iterations processes exactly
the first `n` queued files — and still ends with the completion event,
because the emit on line 64 is outside the loop. -/
theorem runStopN_eq_take (env : AEnv) (n : Nat) (l : List String) :
    runStopN env n l = (l.take n).flatMap (processFile env) ++ [Event.analysisCompleted] := by
  induction l generalizing n with
  | nil => simp [runStopN]
  | cons f rest ih =>
    cases n with
    | zero => simp [runStopN]
    | succ m => simp [runStopN, ih m]

/-- Appending `extra` at any iteration boundary the loop still reaches is
indistinguishable from having queued `extra` at the tail from the start. -/
theorem runApp_eq_runPlain_aux (env : AEnv) (extra l : List String) (k i : Nat)
    (hik : i ≤ k) (hk : k ≤ i + l.length) :
    runApp env k extra i l = runPlain env (l ++ extra) := by
  induction l generalizing i with
  | nil =>
    have : i = k := le_antisymm hik (by simpa using hk)
    simp [runApp, this, runPlain]
  | cons f rest ih =>
    by_cases hi : i = k
    · simp [runApp, hi]
    · have hik' : i + 1 ≤ k := lt_of_le_of_ne hik hi
      have hk' : k ≤ i + 1 + rest.length := by
        simpa [Nat.add_comm, Nat.add_assoc, Nat.add_left_comm] using hk
      simp [runApp, hi, ih (i + 1) hik' hk', runPlain]

/-! ### Independence from the beat pre-warm collaborator -/

/-- One iteration's events do not depend on the beat pre-warm collaborator:
both the success and the failure branch of the inner `try` continue to the
same emit. -/
theorem processFile_beats_independent (ha : Bool) (an : String → AOutcome)
    (beats1 beats2 : String → Except String (List Nat)) (file : String) :
    processFile ⟨ha, an, beats1⟩ file = processFile ⟨ha, an, beats2⟩ file := by
  rw [processFile_eq, processFile_eq]

/-- A whole run's event sequence does not depend on the beat pre-warm
collaborator. -/
theorem runPlain_beats_independent (ha : Bool) (an : String → AOutcome)
    (beats1 beats2 : String → Except String (List Nat)) (l : List String) :
    runPlain ⟨ha, an, beats1⟩ l = runPlain ⟨ha, an, beats2⟩ l := by
  induction l with
  | nil => rfl
  | cons f rest ih =>
    simp only [runPlain, ih, processFile_beats_independent ha an beats1 beats2 f]

/-! ### Lemmas about the dialog state -/

theorem pathJoin_inj {dir f g : String} (h : pathJoin dir f = pathJoin dir g) :
    f = g := by
  unfold pathJoin at h
  have hd := congrArg String.data h
  simp only [String.data_append] at hd
  exact String.ext (List.append_cancel_left hd)

/-- The invariant of the in-memory cache tier: every stored value is
strictly positive (the sentinel `0` and negative values never occur as
stored entries). -/
def CacheOK (c : String → Option ℚ) : Prop :=
  ∀ p v, c p = some v → 0 < v

/-- Conformance of the persistent store to its interface (§6 of the spec):
`get_bpm_data` yields a positive `BpmValue` or is (effectively) absent.
The code relies on this: its promotion check is `cached_data[0] is not None`,
with no positivity guard of its own. -/
def StoreOK (env : DEnv) : Prop :=
  ∀ p v, env.get_bpm_data p = some (some v) → 0 < v

theorem update_track_bpm_of_not_guard {st : DState} {file : String} {bpm : ℚ}
    (h : ¬ (file ∈ st.track_items.map Prod.fst ∧ 0 < bpm)) :
    update_track_bpm st file bpm = st := by
  unfold update_track_bpm
  rw [if_neg h]

theorem update_track_bpm_directory (st : DState) (file : String) (bpm : ℚ) :
    (update_track_bpm st file bpm).directory = st.directory := by
  unfold update_track_bpm
  split
  · cases h : st.directory <;> simp [h]
  · rfl

theorem update_track_bpm_cache_hit {st : DState} {file d : String} {bpm : ℚ}
    (hd : st.directory = some d) (hmem : file ∈ st.track_items.map Prod.fst)
    (hpos : 0 < bpm) :
    (update_track_bpm st file bpm).bpm_cache (pathJoin d file) = some bpm := by
  unfold update_track_bpm
  rw [if_pos ⟨hmem, hpos⟩, hd]
  simp

theorem update_track_bpm_cache_other {st : DState} {file d p : String} {bpm : ℚ}
    (hd : st.directory = some d) (hp : p ≠ pathJoin d file) :
    (update_track_bpm st file bpm).bpm_cache p = st.bpm_cache p := by
  unfold update_track_bpm
  split
  · rw [hd]
    simp [hp]
  · rfl

theorem update_track_bpm_cacheOK {st : DState} {file : String} {bpm : ℚ}
    (h : CacheOK st.bpm_cache) :
    CacheOK (update_track_bpm st file bpm).bpm_cache := by
  unfold update_track_bpm
  split
  · rename_i hg
    cases hdir : st.directory with
    | none => simpa [hdir] using h
    | some d =>
      intro p v hv
      simp only [hdir] at hv
      by_cases hp : p = pathJoin d file
      · simp [hp] at hv
        rw [← hv]
        exact hg.2
      · simp [hp] at hv
        exact h p v hv
  · exact h

/-- The persistent check preserves the cache invariant whenever the store
conforms to its interface (spec §6: positive `BpmValue` or absent). -/
theorem scanPersistent_cacheOK {env : DEnv} {full_path : String} {acc : ScanAcc}
    (hs : StoreOK env) (h : CacheOK acc.cache) :
    CacheOK (scanPersistent env full_path acc).2.cache := by
  unfold scanPersistent
  split
  · cases hgd : env.get_bpm_data full_path with
    | none => exact h
    | some o =>
      cases o with
      | none => exact h
      | some v =>
        intro p w hw
        simp only at hw
        by_cases hp : p = full_path
        · simp [hp] at hw
          exact hw ▸ hs _ v hgd
        · simp [hp] at hw
          exact h p w hw
  · exact h

/-- The in-memory fallback never writes the cache. -/
theorem scanMemory_cache (full_path : String) (cached1 : ℚ) (acc : ScanAcc) :
    (scanMemory full_path cached1 acc).2.cache = acc.cache := by
  simp only [scanMemory]
  split
  · split <;> rfl
  · rfl

theorem scanFile_cacheOK {env : DEnv} {d : String} {acc : ScanAcc} {file : String}
    (hs : StoreOK env) (h : CacheOK acc.cache) :
    CacheOK (scanFile env d acc file).cache := by
  simp only [scanFile]
  split <;>
    · simp only
      rw [scanMemory_cache]
      exact scanPersistent_cacheOK hs h

theorem foldl_scanFile_cacheOK {env : DEnv} {d : String} {files : List String}
    {acc : ScanAcc} (hs : StoreOK env) (h : CacheOK acc.cache) :
    CacheOK ((files.foldl (scanFile env d) acc).cache) := by
  induction files generalizing acc with
  | nil => exact h
  | cons f rest ih => exact ih (scanFile_cacheOK hs h)

theorem startOrExtend_cache (env : DEnv) (d : String) (st : DState)
    (fs : List String) :
    (startOrExtend env d st fs).bpm_cache = st.bpm_cache := by
  unfold startOrExtend
  split
  · split
    · rfl
    · split <;> rfl
  · rfl

theorem populate_file_list_cacheOK {env : DEnv} {st : DState}
    (hs : StoreOK env) (h : CacheOK st.bpm_cache) :
    CacheOK (populate_file_list env st).bpm_cache := by
  simp only [populate_file_list]
  split
  · exact h
  · split
    · exact h
    · split
      · exact h
      · split
        · exact h
        · simp only [startOrExtend_cache]
          exact foldl_scanFile_cacheOK hs h

theorem set_directory_cacheOK {env : DEnv} {st : DState} {d : String}
    (hs : StoreOK env) (h : CacheOK st.bpm_cache) :
    CacheOK (set_directory env st d).bpm_cache := by
  simp only [set_directory]
  split
  · exact populate_file_list_cacheOK hs h
  · exact h

theorem closeEvent_cache (st : DState) :
    (closeEvent st).bpm_cache = st.bpm_cache := by
  unfold closeEvent
  split
  · split <;> rfl
  · rfl

/-! ### The reachable-state transition system over the dialog -/

/-- One control-thread operation on the dialog: a directory change, a
repopulation, the arrival of one worker result (the `bpm_analyzed` slot),
or closing the dialog. -/
inductive DOp where
  | setdir (env : DEnv) (d : String)
  | pop (env : DEnv)
  | update (file : String) (bpm : ℚ)
  | close

def applyDOp (st : DState) : DOp → DState
  | DOp.setdir env d => set_directory env st d
  | DOp.pop env => populate_file_list env st
  | DOp.update file bpm => update_track_bpm st file bpm
  | DOp.close => closeEvent st

/-- An operation's environment, when it has one, honours the persistent
store's interface. -/
def DOpStoreOK : DOp → Prop
  | DOp.setdir env _ => StoreOK env
  | DOp.pop env => StoreOK env
  | DOp.update _ _ => True
  | DOp.close => True

theorem applyDOp_cacheOK {st : DState} {op : DOp}
    (hop : DOpStoreOK op) (h : CacheOK st.bpm_cache) :
    CacheOK (applyDOp st op).bpm_cache := by
  cases op with
  | setdir env d => exact set_directory_cacheOK hop h
  | pop env => exact populate_file_list_cacheOK hop h
  | update file bpm => exact update_track_bpm_cacheOK h
  | close => rw [applyDOp, closeEvent_cache]; exact h

/-! ### Delivery of the worker's queued signals -/

theorem deliverEvent_directory (st : DState) (e : Event) :
    (deliverEvent st e).directory = st.directory := by
  cases e with
  | bpmAnalyzed f b => exact update_track_bpm_directory st f b
  | analysisCompleted => rfl

/-- Delivering a signal sequence none of whose `bpm_analyzed` events names a
path-colliding file leaves the cache unchanged at that path. -/
theorem deliverAll_cache_untouched {st : DState} {d p : String} {evs : List Event}
    (hd : st.directory = some d)
    (hevs : ∀ f b, Event.bpmAnalyzed f b ∈ evs → p ≠ pathJoin d f) :
    (deliverAll st evs).bpm_cache p = st.bpm_cache p := by
  induction evs generalizing st with
  | nil => rfl
  | cons e rest ih =>
    have hstep : (deliverEvent st e).bpm_cache p = st.bpm_cache p := by
      cases e with
      | bpmAnalyzed f b =>
        exact update_track_bpm_cache_other hd (hevs f b (List.mem_cons_self _ _))
      | analysisCompleted => rfl
    have hd' : (deliverEvent st e).directory = some d := by
      rw [deliverEvent_directory, hd]
    have ih' := ih hd'
      (fun f b hb => hevs f b (List.mem_cons_of_mem _ hb))
    calc (deliverAll st (e :: rest)).bpm_cache p
        = (deliverAll (deliverEvent st e) rest).bpm_cache p := rfl
      _ = (deliverEvent st e).bpm_cache p := ih'
      _ = st.bpm_cache p := hstep

/-! ### Concrete sample environments and states for closed instances -/

/-- An analyzer that reports 120 BPM for every file, with a working beat
collaborator. -/
def sampleAEnv : AEnv :=
  { hasAnalyzer := true, analyze := fun _ => AOutcome.value 120,
    beats := fun _ => Except.ok [] }

/-- An analyzer for which `broken.mp3` yields the sentinel `0` and every
other file yields 120 BPM. -/
def brokenAEnv : AEnv :=
  { hasAnalyzer := true,
    analyze := fun f =>
      if f = "broken.mp3" then AOutcome.value 0 else AOutcome.value 120,
    beats := fun _ => Except.ok [] }

/-- An analyzer for which `bad.mp3` raises and every other file yields
120 BPM. -/
def raisingAEnv : AEnv :=
  { hasAnalyzer := true,
    analyze := fun f =>
      if f = "bad.mp3" then AOutcome.raise "decode error" else AOutcome.value 120,
    beats := fun _ => Except.ok [] }

/-- A beat collaborator that always raises. -/
def failingBeats : String → Except String (List Nat) :=
  fun _ => Except.error "beat analysis failed"

/-- A beat collaborator that always succeeds. -/
def okBeats : String → Except String (List Nat) :=
  fun _ => Except.ok []

/-- Two valid directories, a one-file listing, no persistent store. -/
def sampleDEnv : DEnv :=
  { isdir := fun s => s = "d1" || s = "d2",
    listdir := fun _ => Except.ok ["g.mp3"],
    hasAnalyzer := true, hasCacheManager := false,
    get_bpm_data := fun _ => none }

/-- A directory whose listing raises an `OSError`. -/
def errDEnv : DEnv :=
  { isdir := fun s => s = "dirX",
    listdir := fun _ => Except.error "Permission denied",
    hasAnalyzer := true, hasCacheManager := false,
    get_bpm_data := fun _ => none }

/-- A freshly opened dialog on `d1` with no worker. -/
def emptyDState : DState :=
  { directory := some "d1", bpm_cache := fun _ => none, track_items := [],
    status := "", analyzer_thread := none, emitted := [] }

/-- A dialog on `d1` whose worker (owning `d1`, queue `[f.mp3]`) is alive
and running. -/
def busyDState : DState :=
  { directory := some "d1", bpm_cache := fun _ => none, track_items := [],
    status := "", analyzer_thread := some ⟨"d1", ["f.mp3"], true, true⟩,
    emitted := [] }

/-- A dialog on `d1` showing one track that still awaits analysis. -/
def listedDState : DState :=
  { directory := some "d1", bpm_cache := fun _ => none,
    track_items := [("a.mp3", none)], status := "", analyzer_thread := none,
    emitted := [] }

/-- A dialog on `dirX` with stale content from an earlier listing. -/
def errDState : DState :=
  { directory := some "dirX", bpm_cache := fun _ => none,
    track_items := [("old.mp3", some 100)], status := "old",
    analyzer_thread := none, emitted := [] }

/-! ### C1 — cancellation -/

/-- C1 (counterexample): cancelling a running job after one of three files
stops the loop and drops the remaining per-file notifications, but the
batch-done notification IS still emitted — `analysis_completed.emit()` on
line 64 sits after the loop, so the `break` taken on cancellation still
reaches it, contradicting the claim that a cancelled run emits no
`analysis_completed`. -/
theorem C1_counterexample :
    runStopN sampleAEnv 1 ["a.mp3", "b.mp3", "c.mp3"]
      = [Event.bpmAnalyzed "a.mp3" 120, Event.analysisCompleted]
    ∧ Event.analysisCompleted ∈ runStopN sampleAEnv 1 ["a.mp3", "b.mp3", "c.mp3"] := by
  constructor
  · decide
  · decide

/-- C1 (amended): when cancellation is requested after `n` per-file
iterations, the worker stops at the next iteration boundary and emits no
per-file notification for any file remaining in the queue — but it still
emits the `analysis_completed` notification once, after the break. -/
theorem C1_cancel_stops_early_but_still_completes (env : AEnv) (n : Nat)
    (files : List String) :
    runStopN env n files
      = (files.take n).flatMap (processFile env) ++ [Event.analysisCompleted]
    ∧ (∀ f b, Event.bpmAnalyzed f b ∈ runStopN env n files → f ∈ files.take n) := by
  refine ⟨runStopN_eq_take env n files, ?_⟩
  intro f b hmem
  rw [runStopN_eq_take] at hmem
  rcases List.mem_append.mp hmem with hl | hr
  · rcases List.mem_flatMap.mp hl with ⟨g, hg, hfg⟩
    rcases processFile_mem hfg with ⟨b', he, -, -, -⟩
    simp only [Event.bpmAnalyzed.injEq] at he
    exact he.1 ▸ hg
  · simp at hr

/-! ### C2 — order, appends, single completion -/

/-- C2: a job that drains its queue uncancelled emits the per-file
notifications in submission order (one per file with a positive result,
none for sentinel results), treats files appended at any boundary the loop
still reaches exactly as if they had been queued at the tail, and emits
`analysis_completed` exactly once, strictly after every per-file
notification. -/
theorem C2_submission_order_and_single_completion (env : AEnv)
    (files extra : List String) (appendAt : Nat) (h : appendAt ≤ files.length) :
    runApp env appendAt extra 0 files
      = (files ++ extra).flatMap (processFile env) ++ [Event.analysisCompleted]
    ∧ Event.analysisCompleted ∉ (files ++ extra).flatMap (processFile env)
    ∧ ∀ f, processFile env f = []
        ∨ ∃ b, 0 < b ∧ env.analyze f = AOutcome.value b
            ∧ processFile env f = [Event.bpmAnalyzed f b] := by
  refine ⟨?_, completed_not_mem_bind env _, ?_⟩
  · rw [runApp_eq_runPlain_aux env extra files appendAt 0 (Nat.zero_le _)
        (by simpa using h), runPlain_eq_bind]
  · intro f
    rw [processFile_eq]
    cases env.hasAnalyzer with
    | false => left; rfl
    | true =>
      cases hv : env.analyze f with
      | raise m => left; rfl
      | value b =>
        by_cases hb : 0 < b
        · right
          exact ⟨b, hb, rfl, by simp [hb]⟩
        · left
          simp [hb]

/-- C2 (witness): the generic theorem instantiated at a concrete
three-file run with one append. -/
theorem C2_witness :
    1 ≤ (["a.mp3", "b.mp3"] : List String).length
    ∧ (runApp sampleAEnv 1 ["d.mp3"] 0 ["a.mp3", "b.mp3"]
        = (["a.mp3", "b.mp3"] ++ ["d.mp3"]).flatMap (processFile sampleAEnv)
            ++ [Event.analysisCompleted]
      ∧ Event.analysisCompleted
          ∉ (["a.mp3", "b.mp3"] ++ ["d.mp3"]).flatMap (processFile sampleAEnv)
      ∧ ∀ f, processFile sampleAEnv f = []
          ∨ ∃ b, 0 < b ∧ sampleAEnv.analyze f = AOutcome.value b
              ∧ processFile sampleAEnv f = [Event.bpmAnalyzed f b]) :=
  ⟨by decide,
    C2_submission_order_and_single_completion sampleAEnv ["a.mp3", "b.mp3"]
      ["d.mp3"] 1 (by decide)⟩

/-! ### C3 — teardown of the worker on close and on directory change -/

/-- C3 (counterexample): changing the directory of a dialog whose worker is
alive and running does NOT cancel or join it — `populate_file_list` appends
the new directory's batch to the live worker's queue via `add_files`, and
the worker keeps its original directory and its `running = True` flag,
contradicting the claim that a directory change first cancels and joins any
existing running job. -/
theorem C3_counterexample :
    busyDState.analyzer_thread = some ⟨"d1", ["f.mp3"], true, true⟩
    ∧ (set_directory sampleDEnv busyDState "d2").analyzer_thread
        = some ⟨"d1", ["f.mp3", "g.mp3"], true, true⟩ :=
  ⟨rfl, by decide⟩

/-- C3 (amended): a Running job is cancelled (`stop`) and then joined
(`wait`) only when the dialog closes; on repopulation after a directory
change, a live worker is instead reused — the new batch is appended to its
queue by `add_files` and the handle keeps the same (never-cancelled,
never-joined) thread; a fresh thread is created only when none exists or
the existing one is no longer running. -/
theorem C3_teardown_close_only (st : DState) (t : ThreadH) (env : DEnv)
    (d : String) (fs : List String) (ht : st.analyzer_thread = some t)
    (halive : t.alive = true) :
    (closeEvent st).analyzer_thread
      = some { t with runningFlag := false, alive := false }
    ∧ (fs ≠ [] → env.hasAnalyzer = true →
        (startOrExtend env d st fs).analyzer_thread
          = some { t with fileList := t.fileList ++ fs }) := by
  constructor
  · unfold closeEvent
    rw [ht]
    simp [halive]
  · intro hfs hha
    unfold startOrExtend
    rw [if_pos ⟨hfs, hha⟩, ht]
    simp [halive]

/-- C3 (witness): the amended behaviour at the concrete busy dialog. -/
theorem C3_witness :
    busyDState.analyzer_thread = some ⟨"d1", ["f.mp3"], true, true⟩
    ∧ ((⟨"d1", ["f.mp3"], true, true⟩ : ThreadH).alive = true)
    ∧ ((closeEvent busyDState).analyzer_thread
        = some { (⟨"d1", ["f.mp3"], true, true⟩ : ThreadH) with
                 runningFlag := false, alive := false }
      ∧ ((["g.mp3"] : List String) ≠ [] → sampleDEnv.hasAnalyzer = true →
          (startOrExtend sampleDEnv "d2" busyDState ["g.mp3"]).analyzer_thread
            = some { (⟨"d1", ["f.mp3"], true, true⟩ : ThreadH) with
                     fileList := ["f.mp3"] ++ ["g.mp3"] })) :=
  ⟨rfl, rfl,
    C3_teardown_close_only busyDState ⟨"d1", ["f.mp3"], true, true⟩ sampleDEnv
      "d2" ["g.mp3"] rfl rfl⟩

/-! ### C4 — the in-memory tier never stores the sentinel -/

/-- C4: from any state whose in-memory tier satisfies the invariant, any
sequence of dialog operations — directory changes and repopulations
(persistent-hit promotion included) against stores honouring the §6
interface, worker-result writes, closes — preserves it: every value present
in `bpm_cache` is strictly positive. -/
theorem C4_cache_values_positive (ops : List DOp) (st : DState)
    (h0 : CacheOK st.bpm_cache) (hops : ∀ op ∈ ops, DOpStoreOK op) :
    CacheOK ((ops.foldl applyDOp st).bpm_cache) := by
  induction ops generalizing st with
  | nil => exact h0
  | cons op rest ih =>
    rw [List.foldl_cons]
    exact ih (applyDOp st op)
      (applyDOp_cacheOK (hops op (List.mem_cons_self _ _)) h0)
      (fun o ho => hops o (List.mem_cons_of_mem _ ho))

/-- C4 (witness): the invariant holds after a populate against a conforming
store followed by a worker-result write on the fresh dialog. -/
theorem C4_witness :
    CacheOK emptyDState.bpm_cache
    ∧ CacheOK
        (([DOp.pop sampleDEnv, DOp.update "a.mp3" 120].foldl applyDOp
          emptyDState).bpm_cache) :=
  have h0 : CacheOK emptyDState.bpm_cache := by
    intro p v h
    simp [emptyDState] at h
  have hops : ∀ op ∈ [DOp.pop sampleDEnv, DOp.update "a.mp3" 120], DOpStoreOK op := by
    intro op hop
    rcases List.mem_cons.mp hop with h | h
    · subst h
      intro p v hv
      simp [sampleDEnv] at hv
    · rw [List.mem_singleton] at h
      subst h
      trivial
  ⟨h0, C4_cache_values_positive [DOp.pop sampleDEnv, DOp.update "a.mp3" 120]
    emptyDState h0 hops⟩

/-! ### C5 — store followed by lookup -/

/-- C5: storing a valid BPM `v > 0` for a listed file (the `bpm_analyzed`
result write of `update_track_bpm`) writes the in-memory tier at the file's
full path — the operation consults no persistent store, so availability is
irrelevant — and a subsequent same-session `get_cached_bpm` on that path
returns exactly `v`. -/
theorem C5_store_then_lookup (st : DState) (file d : String) (v : ℚ)
    (hd : st.directory = some d) (hmem : file ∈ st.track_items.map Prod.fst)
    (hv : 0 < v) :
    (update_track_bpm st file v).bpm_cache (pathJoin d file) = some v
    ∧ get_cached_bpm (update_track_bpm st file v) (pathJoin d file) = v := by
  have hc := update_track_bpm_cache_hit hd hmem hv
  refine ⟨hc, ?_⟩
  unfold get_cached_bpm
  rw [hc]
  rfl

/-- C5 (witness): storing 95 BPM for the listed `a.mp3` and reading it
back. -/
theorem C5_witness :
    listedDState.directory = some "d1"
    ∧ "a.mp3" ∈ listedDState.track_items.map Prod.fst
    ∧ (0 : ℚ) < 95
    ∧ ((update_track_bpm listedDState "a.mp3" 95).bpm_cache
          (pathJoin "d1" "a.mp3") = some 95
      ∧ get_cached_bpm (update_track_bpm listedDState "a.mp3" 95)
          (pathJoin "d1" "a.mp3") = 95) :=
  ⟨rfl, by decide, by decide,
    C5_store_then_lookup listedDState "a.mp3" "d1" 95 rfl (by decide) (by decide)⟩

/-! ### C6 — sentinel results are silently skipped -/

/-- C6: a file whose analysis returns the sentinel (`0` or any non-positive
value) produces no `bpm_analyzed` notification, the run is exactly what it
would have been without that file (the batch continuing and completing
normally for the rest), and — since the notification is the only path into
the dialog's cache write — delivering the whole run changes nothing in the
in-memory tier at that file's path. -/
theorem C6_sentinel_file_skipped (env : AEnv) (broken : String) (s : ℚ)
    (files : List String) (st : DState) (d : String)
    (hb : env.analyze broken = AOutcome.value s) (hs : ¬ 0 < s)
    (hd : st.directory = some d) :
    (∀ b, Event.bpmAnalyzed broken b ∉ runPlain env files)
    ∧ (∀ xs ys, files = xs ++ broken :: ys →
        runPlain env files = runPlain env (xs ++ ys))
    ∧ Event.analysisCompleted ∈ runPlain env files
    ∧ (deliverAll st (runPlain env files)).bpm_cache (pathJoin d broken)
        = st.bpm_cache (pathJoin d broken) := by
  have hnotb : ∀ f b, Event.bpmAnalyzed f b ∈ runPlain env files → f ≠ broken := by
    intro f b hmem heq
    subst heq
    rw [runPlain_eq_bind] at hmem
    rcases List.mem_append.mp hmem with hl | hr
    · rcases List.mem_flatMap.mp hl with ⟨g, -, hfg⟩
      rcases processFile_mem hfg with ⟨b', he, hv, hpos, -⟩
      simp only [Event.bpmAnalyzed.injEq] at he
      rw [he.1] at hb
      rw [hb] at hv
      cases hv
      exact hs hpos
    · simp at hr
  refine ⟨?_, ?_, ?_, ?_⟩
  · intro b hmem
    exact hnotb broken b hmem rfl
  · intro xs ys hf
    subst hf
    rw [runPlain_append, runPlain_append]
    simp [runPlain, processFile_of_nonpos hb hs]
  · rw [runPlain_eq_bind]
    simp
  · refine deliverAll_cache_untouched hd ?_
    intro f b hmem heq
    exact hnotb f b hmem (pathJoin_inj heq).symm

/-- C6 (witness): the theorem at a concrete three-file batch in which
`broken.mp3` analyzes to `0`, delivered into the listed dialog. -/
theorem C6_witness :
    brokenAEnv.analyze "broken.mp3" = AOutcome.value 0
    ∧ ¬ (0 : ℚ) < 0
    ∧ listedDState.directory = some "d1"
    ∧ ((∀ b, Event.bpmAnalyzed "broken.mp3" b
          ∉ runPlain brokenAEnv ["a.mp3", "broken.mp3", "c.mp3"])
      ∧ (∀ xs ys, ["a.mp3", "broken.mp3", "c.mp3"] = xs ++ "broken.mp3" :: ys →
          runPlain brokenAEnv ["a.mp3", "broken.mp3", "c.mp3"]
            = runPlain brokenAEnv (xs ++ ys))
      ∧ Event.analysisCompleted
          ∈ runPlain brokenAEnv ["a.mp3", "broken.mp3", "c.mp3"]
      ∧ (deliverAll listedDState
            (runPlain brokenAEnv ["a.mp3", "broken.mp3", "c.mp3"])).bpm_cache
            (pathJoin "d1" "broken.mp3")
          = listedDState.bpm_cache (pathJoin "d1" "broken.mp3")) :=
  ⟨by decide, by decide, rfl,
    C6_sentinel_file_skipped brokenAEnv "broken.mp3" 0
      ["a.mp3", "broken.mp3", "c.mp3"] listedDState "d1" (by decide) (by decide)
      rfl⟩

/-! ### C7 — analyzer exceptions are caught at the call -/

/-- C7: when the tempo-detection call raises, the iteration body fails with
exactly that error, the outer `except` converts it to a skip (no event for
the file), the batch is what it would have been without the file, and it
still completes — no analyzer failure escapes the run loop. -/
theorem C7_analyzer_exception_contained (env : AEnv) (file m : String)
    (xs ys : List String) (ha : env.hasAnalyzer = true)
    (hr : env.analyze file = AOutcome.raise m) :
    tryBody env file = Except.error m
    ∧ processFile env file = []
    ∧ runPlain env (xs ++ file :: ys) = runPlain env (xs ++ ys)
    ∧ Event.analysisCompleted ∈ runPlain env (xs ++ file :: ys) := by
  refine ⟨?_, processFile_of_raise hr, ?_, ?_⟩
  · simp [tryBody, analyzeCall, ha, hr]
  · rw [runPlain_append, runPlain_append]
    simp [runPlain, processFile_of_raise hr]
  · rw [runPlain_eq_bind]
    simp

/-- C7 (witness): the theorem at the raising analyzer and a concrete
three-file batch. -/
theorem C7_witness :
    raisingAEnv.hasAnalyzer = true
    ∧ raisingAEnv.analyze "bad.mp3" = AOutcome.raise "decode error"
    ∧ (tryBody raisingAEnv "bad.mp3" = Except.error "decode error"
      ∧ processFile raisingAEnv "bad.mp3" = []
      ∧ runPlain raisingAEnv (["a.mp3"] ++ "bad.mp3" :: ["c.mp3"])
          = runPlain raisingAEnv (["a.mp3"] ++ ["c.mp3"])
      ∧ Event.analysisCompleted
          ∈ runPlain raisingAEnv (["a.mp3"] ++ "bad.mp3" :: ["c.mp3"])) :=
  ⟨rfl, by decide,
    C7_analyzer_exception_contained raisingAEnv "bad.mp3" "decode error"
      ["a.mp3"] ["c.mp3"] rfl (by decide)⟩

/-! ### C8 — beat pre-warm failures are swallowed independently -/

/-- C8: for a file with a valid positive analyzer result, the per-file
notification carries exactly that BPM whatever the beat pre-warm
collaborator does (including always raising), and swapping the beat
collaborator leaves every run's event sequence unchanged — the pre-warm
failure affects neither the file's result nor the rest of the batch. -/
theorem C8_prewarm_failure_swallowed (an : String → AOutcome)
    (beats1 beats2 : String → Except String (List Nat)) (file : String)
    (b : ℚ) (files : List String) (hb : an file = AOutcome.value b)
    (hpos : 0 < b) :
    processFile ⟨true, an, beats1⟩ file = [Event.bpmAnalyzed file b]
    ∧ runPlain ⟨true, an, beats1⟩ files = runPlain ⟨true, an, beats2⟩ files :=
  ⟨processFile_of_value rfl hb hpos,
    runPlain_beats_independent true an beats1 beats2 files⟩

/-- An analyzer function reporting 95 BPM for every file. -/
def const95 : String → AOutcome :=
  fun _ => AOutcome.value 95

/-- C8 (witness): the theorem with an always-raising beat collaborator
against an always-succeeding one. -/
theorem C8_witness :
    const95 "x.mp3" = AOutcome.value 95
    ∧ (0 : ℚ) < 95
    ∧ (processFile ⟨true, const95, failingBeats⟩ "x.mp3"
          = [Event.bpmAnalyzed "x.mp3" 95]
      ∧ runPlain ⟨true, const95, failingBeats⟩ ["x.mp3", "y.mp3"]
          = runPlain ⟨true, const95, okBeats⟩ ["x.mp3", "y.mp3"]) :=
  ⟨rfl, by decide,
    C8_prewarm_failure_swallowed const95 failingBeats okBeats "x.mp3" 95
      ["x.mp3", "y.mp3"] rfl (by decide)⟩

/-! ### C9 — unreadable directory -/

/-- C9: when `os.listdir` raises, `populate_file_list` returns normally
(no exception escapes) with the error reported in the status label, an
empty track list, and everything else — in particular the analyzer-thread
handle and the cache — unchanged: no background worker is started. -/
theorem C9_listdir_error_reported (env : DEnv) (st : DState) (d e : String)
    (hd : st.directory = some d) (hne : d ≠ "") (hisdir : env.isdir d = true)
    (herr : env.listdir d = Except.error e) :
    populate_file_list env st
      = { st with
          track_items := [], status := "Error accessing directory: " ++ e } := by
  simp only [populate_file_list, hd]
  rw [if_neg (by simp [hne, hisdir]), herr]

/-- C9 (witness): the theorem at the raising directory lister. -/
theorem C9_witness :
    errDState.directory = some "dirX"
    ∧ "dirX" ≠ ""
    ∧ errDEnv.isdir "dirX" = true
    ∧ errDEnv.listdir "dirX" = Except.error "Permission denied"
    ∧ populate_file_list errDEnv errDState
        = { errDState with
            track_items := [],
            status := "Error accessing directory: " ++ "Permission denied" } :=
  ⟨rfl, by decide, by decide, rfl,
    C9_listdir_error_reported errDEnv errDState "dirX" "Permission denied" rfl
      (by decide) (by decide) rfl⟩

/-! ### C10 — stale or invalid worker results are dropped whole -/

/-- C10: a worker result for a file that is not in the current track list,
or whose BPM is not positive, changes nothing at all — `update_track_bpm`
returns the state unchanged, so the cache, the track entries, the status
text and the outgoing signal log are all exactly as before. -/
theorem C10_stray_or_invalid_result_ignored (st : DState) (file : String)
    (bpm : ℚ) (h : file ∉ st.track_items.map Prod.fst ∨ ¬ 0 < bpm) :
    update_track_bpm st file bpm = st := by
  apply update_track_bpm_of_not_guard
  intro hg
  rcases h with h | h
  · exact h hg.1
  · exact h hg.2

/-- C10 (witness): a result for a file absent from the listing is dropped
without any state change. -/
theorem C10_witness :
    ("zzz.mp3" ∉ listedDState.track_items.map Prod.fst ∨ ¬ (0 : ℚ) < 120)
    ∧ update_track_bpm listedDState "zzz.mp3" 120 = listedDState :=
  ⟨Or.inl (by decide),
    C10_stray_or_invalid_result_ignored listedDState "zzz.mp3" 120
      (Or.inl (by decide))⟩
